import Mathlib

/-!
Shallow embedding of `src/subsonic/subsonicscrobblerequest.cpp` from the
Strawberry music player: a bounded-concurrency outbound scrobble-request
queue with FIFO backlog, an in-flight counter, and response classification.

The class state (`SubsonicScrobbleRequest`'s member variables) becomes a
structure; each member function becomes a state-passing Lean function.
Collaborator outputs (the transport's reply payload and the JSON extraction
of `SubsonicBaseRequest::GetReplyData` / `ExtractJsonObj`, which live outside
the embedded file) are modelled as fields of the completion event, per the
spec's external-interface contracts.
-/

/-- Model of a Qt `QJsonValue`: a JSON value as produced by document
extraction.  Numbers are modelled as integers (`QJsonValue::toInt` only
converts whole numbers; the scrobble code only reads integral `code`s). -/
inductive Json where
  | null
  | bool (b : Bool)
  | num (n : Int)
  | str (s : String)
  | arr (elems : List Json)
  | obj (fields : List (String × Json))

/-- `QJsonObject::contains(key)`: the object (modelled as an association
list with unique keys) has a binding for `key`. -/
def containsKey (fields : List (String × Json)) (key : String) : Bool :=
  (fields.find? (fun p => p.1 == key)).isSome

/-- `QJsonObject::operator[](key)`: the bound value, or a default
(`Undefined`, modelled as `null`) when the key is absent. -/
def getField (fields : List (String × Json)) (key : String) : Json :=
  match fields.find? (fun p => p.1 == key) with
  | some p => p.2
  | none => Json.null

/-- `QJsonValue::toInt()`: the number when the value is a whole number,
otherwise the default `0`. -/
def jsonToInt : Json → Int
  | Json.num n => n
  | _ => 0

/-- `QJsonValue::toString()`: the string when the value is a string,
otherwise the default empty `QString`. -/
def jsonToString : Json → String
  | Json.str s => s
  | _ => ""

/-- One pending scrobble submission (`SubsonicScrobbleRequest::Request`):
`song_id`, `submission`, and the start time in epoch milliseconds
(`start_time.toMSecsSinceEpoch()` is taken at `CreateScrobbleRequest`;
the embedding receives the milliseconds directly). -/
structure Request where
  song_id : String
  submission : Bool
  time_ms : Int
deriving DecidableEq, Repr

/-- The `ParamList` built for one dispatched request in
`FlushScrobbleRequests`: `QVariant(bool).toString()` renders `true`/`false`,
`QVariant(qint64).toString()` renders the decimal value. -/
def scrobbleParams (request : Request) : List (String × String) :=
  [("id", request.song_id),
   ("submission", if request.submission then "true" else "false"),
   ("time", toString request.time_ms)]

/-- The member state of a `SubsonicScrobbleRequest` object.  `replies_`
holds opaque handles (fresh naturals stand in for `QNetworkReply*`);
`nextHandle` is the supply of fresh handles for `CreateGetRequest`.
`dispatched` is ghost instrumentation: the trace of requests handed to
`CreateGetRequest`, in call order.  `decrements` is ghost instrumentation
counting executions of the `--scrobble_requests_active_` statement. -/
structure SubsonicScrobbleRequest where
  scrobble_requests_queue_ : List Request
  replies_ : List Nat
  scrobble_requests_active_ : Int
  errors_ : List String
  dispatched : List Request
  nextHandle : Nat
  decrements : Nat
deriving DecidableEq, Repr

/-- The constant `kMaxConcurrentScrobbleRequests` from the anonymous
namespace of the source file. -/
def kMaxConcurrentScrobbleRequests : Int := 3

/-- A completed network reply as observed by `ScrobbleReplyReceived`:
the reply's identity (`handle`) plus the collaborator outputs.
`dataEmpty` is the result of `GetReplyData(reply).isEmpty()`; `jsonObj` is
the result of `ExtractJsonObj(data)`, which per the base-request contract
returns an empty object when the payload cannot be parsed. -/
structure Reply where
  handle : Nat
  dataEmpty : Bool
  jsonObj : List (String × Json)

/-- The `while` loop of `SubsonicScrobbleRequest::FlushScrobbleRequests`.
The first argument is the queue, duplicated as recursion fuel and kept in
sync with `scrobble_requests_queue_`: while the queue is non-empty and
`scrobble_requests_active_ < kMaxConcurrentScrobbleRequests`, dequeue the
head, increment the active counter, dispatch (`CreateGetRequest`, which
yields a fresh reply handle appended to `replies_`). -/
def flushLoop : List Request → SubsonicScrobbleRequest → SubsonicScrobbleRequest
  | [], s => s
  | request :: rest, s =>
    if s.scrobble_requests_active_ < kMaxConcurrentScrobbleRequests then
      flushLoop rest
        { s with
          scrobble_requests_queue_ := rest,
          scrobble_requests_active_ := s.scrobble_requests_active_ + 1,
          dispatched := s.dispatched ++ [request],
          replies_ := s.replies_ ++ [s.nextHandle],
          nextHandle := s.nextHandle + 1 }
    else s

/-- `SubsonicScrobbleRequest::FlushScrobbleRequests`. -/
def FlushScrobbleRequests (s : SubsonicScrobbleRequest) : SubsonicScrobbleRequest :=
  flushLoop s.scrobble_requests_queue_ s

/-- `SubsonicScrobbleRequest::CreateScrobbleRequest`: enqueue the request at
the tail, then flush when under the concurrency limit. -/
def CreateScrobbleRequest (s : SubsonicScrobbleRequest) (song_id : String)
    (submission : Bool) (time_ms : Int) : SubsonicScrobbleRequest :=
  let request : Request := { song_id := song_id, submission := submission, time_ms := time_ms }
  let s1 := { s with scrobble_requests_queue_ := s.scrobble_requests_queue_ ++ [request] }
  if s1.scrobble_requests_active_ < kMaxConcurrentScrobbleRequests then
    FlushScrobbleRequests s1
  else s1

/-- `SubsonicScrobbleRequest::FinishCheck`: flush again when the backlog is
non-empty and capacity is available. -/
def FinishCheck (s : SubsonicScrobbleRequest) : SubsonicScrobbleRequest :=
  if !s.scrobble_requests_queue_.isEmpty &&
      decide (s.scrobble_requests_active_ < kMaxConcurrentScrobbleRequests) then
    FlushScrobbleRequests s
  else s

/-- `SubsonicScrobbleRequest::Error(error, debug)`: append `error` to
`errors_` when non-empty (the debug value is only logged), then
`FinishCheck`. -/
def Error (s : SubsonicScrobbleRequest) (error : String) (debug : Option Json) :
    SubsonicScrobbleRequest :=
  let s1 := if !error.isEmpty then { s with errors_ := s.errors_ ++ [error] } else s
  let _ := debug
  FinishCheck s1

/-- `SubsonicScrobbleRequest::ScrobbleReplyReceived(reply)`: ignore unknown
handles; otherwise remove the handle (`replies_.removeAll(reply)`),
decrement the active counter, classify the payload (success / protocol
error / malformed error, appending the corresponding message via `Error`),
and run `FinishCheck` on every path. -/
def ScrobbleReplyReceived (s : SubsonicScrobbleRequest) (reply : Reply) :
    SubsonicScrobbleRequest :=
  if s.replies_.contains reply.handle then
    let s1 := { s with
      replies_ := s.replies_.filter (fun h => h != reply.handle),
      scrobble_requests_active_ := s.scrobble_requests_active_ - 1,
      decrements := s.decrements + 1 }
    if reply.dataEmpty then FinishCheck s1
    else if reply.jsonObj.isEmpty then FinishCheck s1
    else if containsKey reply.jsonObj "error" then
      match getField reply.jsonObj "error" with
      | Json.obj efields =>
        if !efields.isEmpty && containsKey efields "code" && containsKey efields "message" then
          let code : Int := jsonToInt (getField efields "code")
          let message : String := jsonToString (getField efields "message")
          FinishCheck (Error s1 (message ++ " (" ++ toString code ++ ")") none)
        else
          FinishCheck (Error s1 "Json error object is missing code or message."
            (some (Json.obj efields)))
      | _ =>
        FinishCheck (Error s1 "Json error is not an object."
          (some (Json.obj reply.jsonObj)) )
    else FinishCheck s1
  else s

/-- The destructor `~SubsonicScrobbleRequest`: every reply is taken off
`replies_` (disconnected, aborted when running, released); the remaining
member state is otherwise untouched (in particular the active counter is
not decremented). -/
def teardown (s : SubsonicScrobbleRequest) : SubsonicScrobbleRequest :=
  { s with replies_ := [] }

/-- One observable action of the destructor loop on a reply handle:
`QObject::disconnect`, `QNetworkReply::abort`, `deleteLater`. -/
inductive TAction where
  | disconnect (h : Nat)
  | abort (h : Nat)
  | deleteLater (h : Nat)
deriving DecidableEq, Repr

/-- The handle an action acts on. -/
def TAction.handleOf : TAction → Nat
  | TAction.disconnect h => h
  | TAction.abort h => h
  | TAction.deleteLater h => h

/-- The action trace of the destructor loop over `replies_`: for each reply
in order, disconnect it, abort it when `running` (i.e. `reply->isRunning()`),
then release it. -/
def destructorTrace (running : Nat → Bool) : List Nat → List TAction
  | [] => []
  | h :: rest =>
    TAction.disconnect h ::
      ((if running h then [TAction.abort h] else []) ++
        (TAction.deleteLater h :: destructorTrace running rest))

/-- An externally observable event: a `CreateScrobbleRequest` call (the
public submit entry point) or a completed reply being delivered to
`ScrobbleReplyReceived`. -/
inductive Event where
  | submit (r : Request)
  | complete (r : Reply)

/-- Apply one event to the object state. -/
def step (s : SubsonicScrobbleRequest) (e : Event) : SubsonicScrobbleRequest :=
  match e with
  | Event.submit r => CreateScrobbleRequest s r.song_id r.submission r.time_ms
  | Event.complete r => ScrobbleReplyReceived s r

/-- The state right after the constructor: empty queue, no replies,
`scrobble_requests_active_(0)`, no errors. -/
def initState : SubsonicScrobbleRequest :=
  { scrobble_requests_queue_ := [], replies_ := [], scrobble_requests_active_ := 0,
    errors_ := [], dispatched := [], nextHandle := 0, decrements := 0 }

/-- Run a list of events from a given state. -/
def runFrom (s : SubsonicScrobbleRequest) (es : List Event) : SubsonicScrobbleRequest :=
  es.foldl step s

/-- Run a list of events from the freshly constructed object. -/
def run (es : List Event) : SubsonicScrobbleRequest :=
  runFrom initState es

/-- Submit events for a list of requests. -/
def submitEvents (rs : List Request) : List Event :=
  rs.map Event.submit

/-- Well-formedness of an object state: every live reply handle is below
the fresh-handle supply (true of every reachable state, `run_WF`). -/
def WF (s : SubsonicScrobbleRequest) : Prop :=
  ∀ h ∈ s.replies_, h < s.nextHandle

/-- `b` is reachable from `a` by dispatching some prefix of the backlog:
`k` queued requests moved to the dispatch trace, the active counter raised
by `k`, `k` fresh handles appended.  The error log may differ (the `Error`
path appends to it); the decrement count is untouched.  The final conjunct
records that dispatching never pushes the counter beyond the limit. -/
def PostOk (a b : SubsonicScrobbleRequest) : Prop :=
  ∃ k : Nat,
    b.scrobble_requests_queue_ = a.scrobble_requests_queue_.drop k ∧
    b.dispatched = a.dispatched ++ a.scrobble_requests_queue_.take k ∧
    b.scrobble_requests_active_ = a.scrobble_requests_active_ + k ∧
    b.replies_ = a.replies_ ++ List.range' a.nextHandle k ∧
    b.nextHandle = a.nextHandle + k ∧
    b.decrements = a.decrements ∧
    (a.scrobble_requests_active_ ≤ kMaxConcurrentScrobbleRequests →
      b.scrobble_requests_active_ ≤ kMaxConcurrentScrobbleRequests) ∧
    k ≤ a.scrobble_requests_queue_.length

/-- The state after the removal/decrement prologue of
`ScrobbleReplyReceived` for a known handle. -/
def afterDecrement (s : SubsonicScrobbleRequest) (reply : Reply) : SubsonicScrobbleRequest :=
  { s with
    replies_ := s.replies_.filter (fun h => h != reply.handle),
    scrobble_requests_active_ := s.scrobble_requests_active_ - 1,
    decrements := s.decrements + 1 }

/-- The error messages the classification part of `ScrobbleReplyReceived`
appends for a given reply payload (empty list on the success paths).
This mirrors the branch structure of the source function and is proved to
agree with it in `SRR_errors`. -/
def classifyMsg (reply : Reply) : List String :=
  if reply.dataEmpty then []
  else if reply.jsonObj.isEmpty then []
  else if containsKey reply.jsonObj "error" then
    match getField reply.jsonObj "error" with
    | Json.obj efields =>
      if !efields.isEmpty && containsKey efields "code" && containsKey efields "message" then
        [jsonToString (getField efields "message") ++ " (" ++
          toString (jsonToInt (getField efields "code")) ++ ")"]
      else ["Json error object is missing code or message."]
    | _ => ["Json error is not an object."]
  else []

/-- Concrete requests and states used to instantiate the theorems below. -/
def reqA : Request := ⟨"a", true, 1⟩

def reqB : Request := ⟨"b", false, 2⟩

def reqC : Request := ⟨"c", true, 3⟩

def reqD : Request := ⟨"d", true, 4⟩

/-- Four submissions, one more than the concurrency limit. -/
def rsW : List Request := [reqA, reqB, reqC, reqD]

/-- A saturated state: three requests in flight, one queued. -/
def sIdle3 : SubsonicScrobbleRequest :=
  ⟨[reqD], [0, 1, 2], 3, [], [reqA, reqB, reqC], 3, 0⟩

/-- A saturated state with an empty backlog. -/
def sOne : SubsonicScrobbleRequest :=
  ⟨[], [0, 1, 2], 3, [], [reqA, reqB, reqC], 3, 0⟩

/-- A state with a single in-flight request, used for the teardown analysis. -/
def sC3 : SubsonicScrobbleRequest := ⟨[], [0], 1, [], [reqA], 1, 0⟩

/-- Completion event with an absent payload (`GetReplyData` empty). -/
def replySuccess : Reply := ⟨0, true, []⟩

/-- Completion event carrying `{"error":{"code":70,"message":"bad session"}}`. -/
def replyProtocol : Reply :=
  ⟨0, false, [("error", Json.obj [("code", Json.num 70), ("message", Json.str "bad session")])]⟩

/-- Completion event carrying `{"error":"oops"}`. -/
def replyNotObject : Reply := ⟨1, false, [("error", Json.str "oops")]⟩

/-- Completion event carrying `{"error":{"code":70}}`. -/
def replyMissing : Reply := ⟨2, false, [("error", Json.obj [("code", Json.num 70)])]⟩

/-- Completion event carrying `{"error":{"code":"x","message":5}}`. -/
def replyWrongTypes : Reply :=
  ⟨0, false, [("error", Json.obj [("code", Json.str "x"), ("message", Json.num 5)])]⟩

/-- Completion event whose handle was never dispatched. -/
def replyUnknown : Reply := ⟨99, true, []⟩

/-! ## Helper lemmas -/


lemma PostOk_refl (a : SubsonicScrobbleRequest) : PostOk a a := by
  exact ⟨0, by simp⟩

lemma range'_add (s m n : Nat) :
    List.range' s (m + n) = List.range' s m ++ List.range' (s + m) n := by
  induction m generalizing s with
  | zero => simp
  | succ m ih =>
    rw [Nat.succ_add, List.range'_succ, List.range'_succ, ih (s + 1)]
    simp [Nat.add_comm, Nat.add_assoc, Nat.add_left_comm]

lemma PostOk_trans {a b c : SubsonicScrobbleRequest}
    (h1 : PostOk a b) (h2 : PostOk b c) : PostOk a c := by
  obtain ⟨k1, hq1, hd1, ha1, hr1, hn1, hc1, hb1, hl1⟩ := h1
  obtain ⟨k2, hq2, hd2, ha2, hr2, hn2, hc2, hb2, hl2⟩ := h2
  refine ⟨k1 + k2, ?_, ?_, ?_, ?_, ?_, ?_, ?_, ?_⟩
  · rw [hq2, hq1, List.drop_drop, Nat.add_comm]
  · rw [hd2, hd1, hq1, List.take_add, List.append_assoc]
  · rw [ha2, ha1]; push_cast; ring
  · rw [hr2, hr1, hn1, range'_add, List.append_assoc]
  · rw [hn2, hn1, Nat.add_assoc]
  · rw [hc2, hc1]
  · intro h; exact hb2 (hb1 h)
  · rw [hq1, List.length_drop] at hl2
    omega

lemma flushLoop_PostOk (q : List Request) :
    ∀ s : SubsonicScrobbleRequest, s.scrobble_requests_queue_ = q →
      PostOk s (flushLoop q s) := by
  induction q with
  | nil => intro s _; exact PostOk_refl s
  | cons r rest ih =>
    intro s hq
    show PostOk s (flushLoop (r :: rest) s)
    unfold flushLoop
    split
    case isTrue hlt =>
      refine PostOk_trans ?_ (ih _ rfl)
      refine ⟨1, ?_, ?_, ?_, ?_, ?_, ?_, ?_, ?_⟩ <;>
        simp [hq, List.range'_succ]
      · intro _
        simp [kMaxConcurrentScrobbleRequests] at hlt ⊢
        omega
    case isFalse => exact PostOk_refl s

lemma flushLoop_errors (q : List Request) :
    ∀ s : SubsonicScrobbleRequest, (flushLoop q s).errors_ = s.errors_ := by
  induction q with
  | nil => intro s; rfl
  | cons r rest ih =>
    intro s
    show (flushLoop (r :: rest) s).errors_ = s.errors_
    unfold flushLoop
    split
    · rw [ih]
    · rfl

lemma finishCheck_errors (s : SubsonicScrobbleRequest) :
    (FinishCheck s).errors_ = s.errors_ := by
  unfold FinishCheck
  split
  · exact flushLoop_errors _ s
  · rfl

lemma finishCheck_PostOk (s : SubsonicScrobbleRequest) : PostOk s (FinishCheck s) := by
  unfold FinishCheck
  split
  · exact flushLoop_PostOk _ s rfl
  · exact PostOk_refl s

lemma error_PostOk (s : SubsonicScrobbleRequest) (msg : String) (d : Option Json) :
    PostOk s (Error s msg d) := by
  unfold Error
  refine PostOk_trans (b := if !msg.isEmpty then { s with errors_ := s.errors_ ++ [msg] } else s)
    ?_ (finishCheck_PostOk _)
  split <;> exact ⟨0, by simp⟩

lemma finishCheck_error_PostOk (s : SubsonicScrobbleRequest) (msg : String) (d : Option Json) :
    PostOk s (FinishCheck (Error s msg d)) :=
  PostOk_trans (error_PostOk s msg d) (finishCheck_PostOk _)

lemma error_errors (s : SubsonicScrobbleRequest) (msg : String) (d : Option Json)
    (h : msg.isEmpty = false) :
    (Error s msg d).errors_ = s.errors_ ++ [msg] := by
  unfold Error
  rw [finishCheck_errors]
  simp [h]


lemma SRR_unknown (s : SubsonicScrobbleRequest) (reply : Reply)
    (h : s.replies_.contains reply.handle = false) :
    ScrobbleReplyReceived s reply = s := by
  unfold ScrobbleReplyReceived
  rw [h]
  rfl

lemma SRR_PostOk (s : SubsonicScrobbleRequest) (reply : Reply)
    (h : s.replies_.contains reply.handle = true) :
    PostOk (afterDecrement s reply) (ScrobbleReplyReceived s reply) := by
  unfold ScrobbleReplyReceived afterDecrement
  rw [h]
  simp only [if_true]
  repeat' split
  all_goals first
    | exact finishCheck_PostOk _
    | exact finishCheck_error_PostOk _ _ _


lemma protocolMsg_isEmpty (m : String) (c : Int) :
    (m ++ " (" ++ toString c ++ ")").isEmpty = false := by
  rw [Bool.eq_false_iff]
  intro h
  have h2 : m ++ " (" ++ toString c ++ ")" = "" := (String.isEmpty_iff _).mp h
  have h3 := congrArg String.length h2
  simp only [String.length_append] at h3
  have h4 : (" (" : String).length = 2 := rfl
  have h5 : (")" : String).length = 1 := rfl
  have h6 : ("" : String).length = 0 := rfl
  omega

lemma diagNotObject_isEmpty : "Json error is not an object.".isEmpty = false := rfl

lemma diagMissing_isEmpty :
    "Json error object is missing code or message.".isEmpty = false := rfl

lemma SRR_errors (s : SubsonicScrobbleRequest) (reply : Reply)
    (hmem : s.replies_.contains reply.handle = true) :
    (ScrobbleReplyReceived s reply).errors_ = s.errors_ ++ classifyMsg reply := by
  unfold ScrobbleReplyReceived classifyMsg
  rw [hmem]
  simp only [if_true]
  repeat' split
  all_goals
    simp_all [finishCheck_errors, error_errors, protocolMsg_isEmpty,
      diagNotObject_isEmpty, diagMissing_isEmpty]

lemma flushLoop_nostall (q : List Request) :
    ∀ s : SubsonicScrobbleRequest, s.scrobble_requests_queue_ = q →
      (flushLoop q s).scrobble_requests_queue_ = [] ∨
        ¬((flushLoop q s).scrobble_requests_active_ < kMaxConcurrentScrobbleRequests) := by
  induction q with
  | nil => intro s hq; left; exact hq
  | cons r rest ih =>
    intro s hq
    show _ ∨ _
    unfold flushLoop
    split
    case isTrue hlt => exact ih _ rfl
    case isFalse hge => right; exact hge

lemma finishCheck_nostall (s : SubsonicScrobbleRequest) :
    (FinishCheck s).scrobble_requests_queue_ = [] ∨
      ¬((FinishCheck s).scrobble_requests_active_ < kMaxConcurrentScrobbleRequests) := by
  unfold FinishCheck
  split
  case isTrue h => exact flushLoop_nostall _ s rfl
  case isFalse h =>
    by_cases hq : s.scrobble_requests_queue_.isEmpty = true
    · left; exact List.isEmpty_iff.mp hq
    · right
      intro hlt
      have hq2 : s.scrobble_requests_queue_.isEmpty = false := by simpa using hq
      exact h (by simp [hq2]; exact hlt)

lemma SRR_outer_finishCheck (s : SubsonicScrobbleRequest) (reply : Reply)
    (hmem : s.replies_.contains reply.handle = true) :
    ∃ t, ScrobbleReplyReceived s reply = FinishCheck t := by
  unfold ScrobbleReplyReceived
  rw [hmem]
  simp only [if_true]
  repeat' split
  all_goals exact ⟨_, rfl⟩

lemma SRR_nostall (s : SubsonicScrobbleRequest) (reply : Reply)
    (hmem : s.replies_.contains reply.handle = true) :
    (ScrobbleReplyReceived s reply).scrobble_requests_queue_ = [] ∨
      ¬((ScrobbleReplyReceived s reply).scrobble_requests_active_ <
          kMaxConcurrentScrobbleRequests) := by
  obtain ⟨t, ht⟩ := SRR_outer_finishCheck s reply hmem
  rw [ht]
  exact finishCheck_nostall t

lemma contains_true_iff (l : List Nat) (a : Nat) : l.contains a = true ↔ a ∈ l := by
  simp [List.contains]

lemma PostOk_WF {a b : SubsonicScrobbleRequest} (hwf : WF a) (h : PostOk a b) : WF b := by
  obtain ⟨k, hq, hd, ha, hr, hn, hc, hb, hl⟩ := h
  intro x hx
  rw [hr] at hx
  rw [hn]
  rcases List.mem_append.mp hx with hx | hx
  · exact lt_of_lt_of_le (hwf x hx) (Nat.le_add_right _ _)
  · exact (List.mem_range'_1.mp hx).2

lemma afterDecrement_WF (s : SubsonicScrobbleRequest) (reply : Reply) (hwf : WF s) :
    WF (afterDecrement s reply) := by
  intro x hx
  exact hwf x (List.mem_of_mem_filter hx)

lemma createScrobble_PostOk (s : SubsonicScrobbleRequest) (song_id : String)
    (submission : Bool) (time_ms : Int) :
    PostOk
      { s with scrobble_requests_queue_ :=
          s.scrobble_requests_queue_ ++ [⟨song_id, submission, time_ms⟩] }
      (CreateScrobbleRequest s song_id submission time_ms) := by
  unfold CreateScrobbleRequest
  dsimp only
  split
  · exact flushLoop_PostOk _ _ rfl
  · exact PostOk_refl _

lemma step_WF (s : SubsonicScrobbleRequest) (e : Event) (hwf : WF s) : WF (step s e) := by
  cases e with
  | submit r =>
    show WF (CreateScrobbleRequest s r.song_id r.submission r.time_ms)
    exact PostOk_WF
      (a := { s with scrobble_requests_queue_ :=
          s.scrobble_requests_queue_ ++ [⟨r.song_id, r.submission, r.time_ms⟩] })
      hwf (createScrobble_PostOk s r.song_id r.submission r.time_ms)
  | complete r =>
    show WF (ScrobbleReplyReceived s r)
    by_cases hmem : s.replies_.contains r.handle = true
    · exact PostOk_WF (afterDecrement_WF s r hwf) (SRR_PostOk s r hmem)
    · rw [SRR_unknown s r (by simpa using hmem)]; exact hwf

lemma runFrom_WF (es : List Event) : ∀ s, WF s → WF (runFrom s es) := by
  induction es with
  | nil => intro s h; exact h
  | cons e es ih => intro s h; exact ih _ (step_WF s e h)

lemma run_WF (es : List Event) : WF (run es) := by
  refine runFrom_WF es initState ?_
  intro h hx
  simp [initState] at hx

lemma step_active_le (s : SubsonicScrobbleRequest) (e : Event)
    (h : s.scrobble_requests_active_ ≤ kMaxConcurrentScrobbleRequests) :
    (step s e).scrobble_requests_active_ ≤ kMaxConcurrentScrobbleRequests := by
  cases e with
  | submit r =>
    show (CreateScrobbleRequest s r.song_id r.submission r.time_ms).scrobble_requests_active_ ≤
      kMaxConcurrentScrobbleRequests
    obtain ⟨k, _, _, _, _, _, _, hb, _⟩ := createScrobble_PostOk s r.song_id r.submission r.time_ms
    exact hb h
  | complete r =>
    show (ScrobbleReplyReceived s r).scrobble_requests_active_ ≤ kMaxConcurrentScrobbleRequests
    by_cases hmem : s.replies_.contains r.handle = true
    · obtain ⟨k, _, _, _, _, _, _, hb, _⟩ := SRR_PostOk s r hmem
      refine hb ?_
      show s.scrobble_requests_active_ - 1 ≤ kMaxConcurrentScrobbleRequests
      omega
    · rw [SRR_unknown s r (by simpa using hmem)]; exact h

lemma runFrom_active_le (es : List Event) :
    ∀ s : SubsonicScrobbleRequest,
      s.scrobble_requests_active_ ≤ kMaxConcurrentScrobbleRequests →
      (runFrom s es).scrobble_requests_active_ ≤ kMaxConcurrentScrobbleRequests := by
  induction es with
  | nil => intro s h; exact h
  | cons e es ih => intro s h; exact ih _ (step_active_le s e h)

lemma submits_saturated (rs : List Request) :
    ∀ s : SubsonicScrobbleRequest,
      ¬(s.scrobble_requests_active_ < kMaxConcurrentScrobbleRequests) →
      runFrom s (submitEvents rs) =
        { s with scrobble_requests_queue_ := s.scrobble_requests_queue_ ++ rs } := by
  induction rs with
  | nil =>
    intro s _
    show s = _
    simp
  | cons r rest ih =>
    intro s h
    show runFrom (step s (Event.submit r)) (submitEvents rest) = _
    have hstep : step s (Event.submit r) =
        { s with scrobble_requests_queue_ := s.scrobble_requests_queue_ ++ [r] } := by
      show CreateScrobbleRequest s r.song_id r.submission r.time_ms = _
      unfold CreateScrobbleRequest
      dsimp only
      rw [if_neg h]
    rw [hstep,
      ih { s with scrobble_requests_queue_ := s.scrobble_requests_queue_ ++ [r] } h]
    simp

lemma submits_filling (rs : List Request) :
    ∀ s : SubsonicScrobbleRequest,
      s.scrobble_requests_queue_ = [] →
      0 ≤ s.scrobble_requests_active_ →
      s.scrobble_requests_active_ ≤ kMaxConcurrentScrobbleRequests →
      (runFrom s (submitEvents rs)).dispatched =
          s.dispatched ++
            rs.take (kMaxConcurrentScrobbleRequests - s.scrobble_requests_active_).toNat ∧
      (runFrom s (submitEvents rs)).scrobble_requests_queue_ =
          rs.drop (kMaxConcurrentScrobbleRequests - s.scrobble_requests_active_).toNat ∧
      (runFrom s (submitEvents rs)).scrobble_requests_active_ =
          s.scrobble_requests_active_ +
            min rs.length
              (kMaxConcurrentScrobbleRequests - s.scrobble_requests_active_).toNat := by
  induction rs with
  | nil =>
    intro s hq _ _
    refine ⟨by simp [runFrom, submitEvents], ?_, by simp [runFrom, submitEvents]⟩
    simpa [runFrom, submitEvents] using hq
  | cons r rest ih =>
    intro s hq h0 h3
    have hrun : runFrom s (submitEvents (r :: rest)) =
        runFrom (step s (Event.submit r)) (submitEvents rest) := rfl
    by_cases hlt : s.scrobble_requests_active_ < kMaxConcurrentScrobbleRequests
    · have hstep : step s (Event.submit r) =
          { s with
            scrobble_requests_queue_ := [],
            scrobble_requests_active_ := s.scrobble_requests_active_ + 1,
            dispatched := s.dispatched ++ [r],
            replies_ := s.replies_ ++ [s.nextHandle],
            nextHandle := s.nextHandle + 1 } := by
        show CreateScrobbleRequest s r.song_id r.submission r.time_ms = _
        simp [CreateScrobbleRequest, FlushScrobbleRequests, flushLoop, hq, hlt]
      rw [hrun, hstep]
      obtain ⟨ih1, ih2, ih3⟩ := ih
        { s with
          scrobble_requests_queue_ := [],
          scrobble_requests_active_ := s.scrobble_requests_active_ + 1,
          dispatched := s.dispatched ++ [r],
          replies_ := s.replies_ ++ [s.nextHandle],
          nextHandle := s.nextHandle + 1 }
        rfl
        (by show (0 : Int) ≤ s.scrobble_requests_active_ + 1; omega)
        (by show s.scrobble_requests_active_ + 1 ≤ kMaxConcurrentScrobbleRequests; omega)
      rw [ih1, ih2, ih3]
      have hf : (kMaxConcurrentScrobbleRequests - s.scrobble_requests_active_).toNat =
          (kMaxConcurrentScrobbleRequests - (s.scrobble_requests_active_ + 1)).toNat + 1 := by
        omega
      refine ⟨?_, ?_, ?_⟩
      · rw [hf, List.take_succ_cons]
        simp
      · rw [hf, List.drop_succ_cons]
      · dsimp only
        rw [hf]
        simp only [List.length_cons, Nat.succ_min_succ]
        push_cast
        ring
    · have hstep : step s (Event.submit r) =
          { s with scrobble_requests_queue_ := [r] } := by
        show CreateScrobbleRequest s r.song_id r.submission r.time_ms = _
        unfold CreateScrobbleRequest
        dsimp only
        rw [hq]
        rw [if_neg hlt]
        rfl
      rw [hrun, hstep,
        submits_saturated rest { s with scrobble_requests_queue_ := [r] } hlt]
      have hf : (kMaxConcurrentScrobbleRequests - s.scrobble_requests_active_).toNat = 0 := by
        omega
      rw [hf]
      refine ⟨by simp, by simp, by simp⟩

lemma containsKey_isEmpty (fields : List (String × Json)) (key : String)
    (h : containsKey fields key = true) : fields.isEmpty = false := by
  cases fields with
  | nil => simp [containsKey] at h
  | cons p rest => rfl

lemma jsonToInt_default (j : Json) (h : ∀ n : Int, j ≠ Json.num n) : jsonToInt j = 0 := by
  cases j <;> first | rfl | exact absurd rfl (h _)

lemma jsonToString_default (j : Json) (h : ∀ m : String, j ≠ Json.str m) :
    jsonToString j = "" := by
  cases j <;> first | rfl | exact absurd rfl (h _)

lemma SRR_handle_not_contained (s : SubsonicScrobbleRequest) (reply : Reply)
    (hwf : WF s) :
    (ScrobbleReplyReceived s reply).replies_.contains reply.handle = false := by
  by_cases hmem : s.replies_.contains reply.handle = true
  · obtain ⟨k, _, _, _, hr, _, _, _, _⟩ := SRR_PostOk s reply hmem
    rw [hr]
    rw [Bool.eq_false_iff]
    intro hc
    rcases List.mem_append.mp ((contains_true_iff _ _).mp hc) with hx | hx
    · have := List.of_mem_filter hx
      simp at this
    · have hlt := hwf reply.handle ((contains_true_iff _ _).mp hmem)
      have := (List.mem_range'_1.mp hx).1
      show False
      have hnh : (afterDecrement s reply).nextHandle = s.nextHandle := rfl
      rw [hnh] at this
      omega
  · rw [SRR_unknown s reply (by simpa using hmem)]
    simpa using hmem

lemma protocolFormat_getLast (m : String) (c : Int) :
    (m ++ " (" ++ toString c ++ ")").data.getLast? = some ')' := by
  have h1 : (")" : String).data = [')'] := rfl
  have h2 : (m ++ " (" ++ toString c ++ ")").data =
      (m.data ++ " (".data ++ (toString c).data) ++ [')'] := by
    simp [String.data_append, h1]
  rw [h2, List.getLast?_concat]

lemma ne_protocolFormat_of_getLast (d : String) (ch : Char)
    (hch : d.data.getLast? = some ch) (hne : ch ≠ ')') (m : String) (c : Int) :
    d ≠ m ++ " (" ++ toString c ++ ")" := by
  intro h
  rw [h, protocolFormat_getLast] at hch
  exact hne (Option.some.inj hch).symm

lemma mem_destructorTrace_handleOf (running : Nat → Bool) :
    ∀ (replies : List Nat) (a : TAction),
      a ∈ destructorTrace running replies → a.handleOf ∈ replies := by
  intro replies
  induction replies with
  | nil => intro a ha; cases ha
  | cons x rest ih =>
    intro a ha
    unfold destructorTrace at ha
    rcases List.mem_cons.mp ha with rfl | ha2
    · exact List.mem_cons_self x rest
    · rcases List.mem_append.mp ha2 with ha3 | ha4
      · cases hr : running x <;> rw [hr] at ha3
        · cases ha3
        · rcases List.mem_cons.mp ha3 with rfl | ha5
          · exact List.mem_cons_self x rest
          · cases ha5
      · rcases List.mem_cons.mp ha4 with rfl | ha5
        · exact List.mem_cons_self x rest
        · exact List.mem_cons_of_mem x (ih a ha5)

lemma trace_filter_not_mem (running : Nat → Bool) (h : Nat)
    (replies : List Nat) (hnm : h ∉ replies) :
    (destructorTrace running replies).filter (fun a => a.handleOf == h) = [] := by
  rw [List.filter_eq_nil_iff]
  intro a ha
  have hmem := mem_destructorTrace_handleOf running replies a ha
  simp only [beq_iff_eq]
  intro he
  exact hnm (he ▸ hmem)

lemma trace_filter_mem (running : Nat → Bool) (h : Nat) :
    ∀ replies : List Nat, replies.Nodup → h ∈ replies → running h = true →
      (destructorTrace running replies).filter (fun a => a.handleOf == h) =
        [TAction.disconnect h, TAction.abort h, TAction.deleteLater h] := by
  intro replies
  induction replies with
  | nil => intro _ hmem _; cases hmem
  | cons x rest ih =>
    intro hnodup hmem hrun
    obtain ⟨hxnotin, hrestnodup⟩ := List.nodup_cons.mp hnodup
    rcases List.mem_cons.mp hmem with rfl | hmem2
    · have hd : ((TAction.disconnect h).handleOf == h) = true := by simp [TAction.handleOf]
      have hab : ((TAction.abort h).handleOf == h) = true := by simp [TAction.handleOf]
      have hdl : ((TAction.deleteLater h).handleOf == h) = true := by simp [TAction.handleOf]
      simp [destructorTrace, List.filter_append, hrun, hd, hab, hdl,
        trace_filter_not_mem running h rest hxnotin]
    · have hx : (x == h) = false := by
        simp only [beq_eq_false_iff_ne, ne_eq]
        intro he
        exact hxnotin (he ▸ hmem2)
      have hd : ((TAction.disconnect x).handleOf == h) = false := by
        simp [TAction.handleOf, hx]
      have hab : ((TAction.abort x).handleOf == h) = false := by
        simp [TAction.handleOf, hx]
      have hdl : ((TAction.deleteLater x).handleOf == h) = false := by
        simp [TAction.handleOf, hx]
      cases hr : running x <;>
        simp [destructorTrace, List.filter_append, hr, hd, hab, hdl,
          ih hrestnodup hmem2 hrun]


lemma wf_sOne : WF sOne := by
  intro h hh
  simp [sOne] at hh ⊢
  omega

lemma wf_sC3 : WF sC3 := by
  intro h hh
  simp [sC3] at hh ⊢
  omega

lemma wf_sIdle3 : WF sIdle3 := by
  intro h hh
  simp [sIdle3] at hh ⊢
  omega

/-! ## Claims -/

/-- C1: over every sequence of submit calls and completion events, the
in-flight counter `scrobble_requests_active_` never exceeds the concurrency
limit `kMaxConcurrentScrobbleRequests`, which is the fixed constant 3. -/
theorem C1_active_never_exceeds_limit :
    kMaxConcurrentScrobbleRequests = 3 ∧
    ∀ es : List Event,
      (run es).scrobble_requests_active_ ≤ kMaxConcurrentScrobbleRequests := by
  refine ⟨rfl, fun es => ?_⟩
  exact runFrom_active_le es initState (by decide)

/-- C3 counterexample: the claim includes the teardown-abort path among the
paths on which `scrobble_requests_active_` is decremented exactly once per
dispatched request, but the destructor never decrements the counter: from
`sC3` (one dispatched in-flight request, counter 1, zero decrements so far)
teardown releases the handle while the decrement count stays 0, and the
cancelled operation signalling completion afterwards still performs no
decrement — 0 decrements, not exactly 1, for that dispatched request. -/
theorem C3_counterexample_teardown_no_decrement :
    sC3.scrobble_requests_active_ = 1 ∧ sC3.decrements = 0 ∧
    (teardown sC3).scrobble_requests_active_ = 1 ∧
    (teardown sC3).decrements = 0 ∧
    (ScrobbleReplyReceived (teardown sC3) replySuccess).decrements = 0 := by
  refine ⟨rfl, rfl, rfl, rfl, ?_⟩
  decide

/-- C3 (amended): `scrobble_requests_active_` is decremented exactly once per
completed dispatched request on every completion path — success, protocol
error and malformed error alike (the statement quantifies over all reply
payloads) — never twice for the same handle; on the teardown-abort path the
handle is released without any decrement, and a completion delivered after
teardown performs no decrement either. -/
theorem C3_decrement_exactly_once_amended :
    (∀ (s : SubsonicScrobbleRequest) (reply : Reply),
      s.replies_.contains reply.handle = true →
      (ScrobbleReplyReceived s reply).decrements = s.decrements + 1) ∧
    (∀ (s : SubsonicScrobbleRequest) (reply : Reply),
      s.replies_.contains reply.handle = false →
      ScrobbleReplyReceived s reply = s) ∧
    (∀ (s : SubsonicScrobbleRequest) (reply : Reply),
      WF s →
      (ScrobbleReplyReceived (ScrobbleReplyReceived s reply) reply).decrements ≤
        s.decrements + 1) ∧
    (∀ (s : SubsonicScrobbleRequest) (reply : Reply),
      (teardown s).decrements = s.decrements ∧
      (ScrobbleReplyReceived (teardown s) reply).decrements = s.decrements) := by
  refine ⟨?_, ?_, ?_, ?_⟩
  · intro s reply hmem
    obtain ⟨k, _, _, _, _, _, hc, _, _⟩ := SRR_PostOk s reply hmem
    rw [hc]
    rfl
  · intro s reply hmem
    exact SRR_unknown s reply hmem
  · intro s reply hwf
    by_cases hmem : s.replies_.contains reply.handle = true
    · rw [SRR_unknown _ _ (SRR_handle_not_contained s reply hwf)]
      obtain ⟨k, _, _, _, _, _, hc, _, _⟩ := SRR_PostOk s reply hmem
      rw [hc]
      exact Nat.le_refl _
    · have h0 := SRR_unknown s reply (by simpa using hmem)
      rw [h0, h0]
      exact Nat.le_succ _
  · intro s reply
    refine ⟨rfl, ?_⟩
    rw [SRR_unknown (teardown s) reply rfl]
    exact rfl

/-- C3 witness: the amended theorem applied at concrete inputs. -/
theorem C3_decrement_exactly_once_amended_witness :
    (sC3.replies_.contains replySuccess.handle = true ∧
      (ScrobbleReplyReceived sC3 replySuccess).decrements = sC3.decrements + 1) ∧
    (sOne.replies_.contains replyUnknown.handle = false ∧
      ScrobbleReplyReceived sOne replyUnknown = sOne) ∧
    (WF sC3 ∧
      (ScrobbleReplyReceived (ScrobbleReplyReceived sC3 replySuccess)
          replySuccess).decrements ≤ sC3.decrements + 1) :=
  ⟨⟨by decide, C3_decrement_exactly_once_amended.1 sC3 replySuccess (by decide)⟩,
   ⟨by decide, C3_decrement_exactly_once_amended.2.1 sOne replyUnknown (by decide)⟩,
   ⟨wf_sC3, C3_decrement_exactly_once_amended.2.2.1 sC3 replySuccess wf_sC3⟩⟩

/-- C6: a completion with absent payload, or an unparsable payload (empty
extracted object), or a parsed document without an `error` field, is
classified as success: nothing is appended to `errors_`. -/
theorem C6_success_appends_nothing :
    ∀ (s : SubsonicScrobbleRequest) (reply : Reply),
      s.replies_.contains reply.handle = true →
      (reply.dataEmpty = true ∨ reply.jsonObj = [] ∨
        containsKey reply.jsonObj "error" = false) →
      (ScrobbleReplyReceived s reply).errors_ = s.errors_ := by
  intro s reply hmem hcase
  rw [SRR_errors s reply hmem]
  have hc : classifyMsg reply = [] := by
    rcases hcase with hde | hj | hce
    · simp [classifyMsg, hde]
    · cases hde : reply.dataEmpty <;> simp [classifyMsg, hde, hj]
    · cases hde : reply.dataEmpty <;>
        cases hje : reply.jsonObj.isEmpty <;>
          simp [classifyMsg, hde, hje, hce]
  rw [hc, List.append_nil]

/-- C6 witness: an absent-payload completion on a concrete state appends
nothing. -/
theorem C6_success_appends_nothing_witness :
    sOne.replies_.contains replySuccess.handle = true ∧
    (ScrobbleReplyReceived sOne replySuccess).errors_ = sOne.errors_ :=
  ⟨by decide, C6_success_appends_nothing sOne replySuccess (by decide) (Or.inl rfl)⟩

/-- C7: a completion for a handle not in the active set is a no-op, and a
second completion with the same handle (on a well-formed state) leaves the
whole state unchanged: no double decrement, no double drain. -/
theorem C7_unknown_handle_noop :
    (∀ (s : SubsonicScrobbleRequest) (reply : Reply),
      s.replies_.contains reply.handle = false →
      ScrobbleReplyReceived s reply = s) ∧
    (∀ (s : SubsonicScrobbleRequest) (reply : Reply),
      WF s →
      ScrobbleReplyReceived (ScrobbleReplyReceived s reply) reply =
        ScrobbleReplyReceived s reply) := by
  refine ⟨SRR_unknown, ?_⟩
  intro s reply hwf
  by_cases hmem : s.replies_.contains reply.handle = true
  · exact SRR_unknown _ _ (SRR_handle_not_contained s reply hwf)
  · have h0 := SRR_unknown s reply (by simpa using hmem)
    rw [h0]
    exact h0

/-- C7 witness: the theorem applied at concrete inputs. -/
theorem C7_unknown_handle_noop_witness :
    (sOne.replies_.contains replyUnknown.handle = false ∧
      ScrobbleReplyReceived sOne replyUnknown = sOne) ∧
    (WF sOne ∧
      ScrobbleReplyReceived (ScrobbleReplyReceived sOne replySuccess) replySuccess =
        ScrobbleReplyReceived sOne replySuccess) :=
  ⟨⟨by decide, C7_unknown_handle_noop.1 sOne replyUnknown (by decide)⟩,
   ⟨wf_sOne, C7_unknown_handle_noop.2 sOne replySuccess wf_sOne⟩⟩

/-- C9: in the destructor, each still-running in-flight reply is
disconnected strictly before it is aborted and then released (the per-handle
action subsequence is exactly disconnect, abort, release); and after
teardown a completion signal is a no-op — no classification runs and
`errors_` is never mutated again. -/
theorem C9_teardown_disconnect_before_abort :
    (∀ (running : Nat → Bool) (replies : List Nat) (h : Nat),
      replies.Nodup → h ∈ replies → running h = true →
      (destructorTrace running replies).filter (fun a => a.handleOf == h) =
        [TAction.disconnect h, TAction.abort h, TAction.deleteLater h]) ∧
    (∀ (s : SubsonicScrobbleRequest) (reply : Reply),
      ScrobbleReplyReceived (teardown s) reply = teardown s) := by
  refine ⟨?_, ?_⟩
  · intro running replies h h1 h2 h3
    exact trace_filter_mem running h replies h1 h2 h3
  · intro s reply
    exact SRR_unknown (teardown s) reply rfl

/-- C9 witness: the theorem applied at concrete inputs. -/
theorem C9_teardown_disconnect_before_abort_witness :
    ([5, 9].Nodup ∧ 9 ∈ [5, 9] ∧
      (destructorTrace (fun _ => true) [5, 9]).filter (fun a => a.handleOf == 9) =
        [TAction.disconnect 9, TAction.abort 9, TAction.deleteLater 9]) ∧
    ScrobbleReplyReceived (teardown sC3) replySuccess = teardown sC3 :=
  ⟨⟨by decide, by decide,
    C9_teardown_disconnect_before_abort.1 (fun _ => true) [5, 9] 9 (by decide)
      (by decide) rfl⟩,
   C9_teardown_disconnect_before_abort.2 sC3 replySuccess⟩

/-- C4: a completion whose parsed document has an `error` field that is an
object containing both a `code` bound to a number and a `message` bound to a
string is classified as a protocol error and appends `"{message} ({code})"`
to `errors_`. -/
theorem C4_protocol_error_message :
    ∀ (s : SubsonicScrobbleRequest) (reply : Reply)
        (efields : List (String × Json)) (c : Int) (m : String),
      s.replies_.contains reply.handle = true →
      reply.dataEmpty = false →
      containsKey reply.jsonObj "error" = true →
      getField reply.jsonObj "error" = Json.obj efields →
      containsKey efields "code" = true →
      containsKey efields "message" = true →
      getField efields "code" = Json.num c →
      getField efields "message" = Json.str m →
      (ScrobbleReplyReceived s reply).errors_ =
        s.errors_ ++ [m ++ " (" ++ toString c ++ ")"] := by
  intro s reply efields c m hmem hde hce hobj hcc hcm hvc hvm
  rw [SRR_errors s reply hmem]
  have hne : reply.jsonObj.isEmpty = false := containsKey_isEmpty _ _ hce
  have hne2 : efields.isEmpty = false := containsKey_isEmpty _ _ hcc
  simp [classifyMsg, hde, hne, hce, hobj, hne2, hcc, hcm, hvc, hvm,
    jsonToInt, jsonToString]

/-- C4 witness: `{"error":{"code":70,"message":"bad session"}}` appends
`"bad session (70)"`. -/
theorem C4_protocol_error_message_witness :
    sOne.replies_.contains replyProtocol.handle = true ∧
    (ScrobbleReplyReceived sOne replyProtocol).errors_ =
      sOne.errors_ ++ ["bad session (70)"] := by
  refine ⟨by decide, ?_⟩
  have h := C4_protocol_error_message sOne replyProtocol
    [("code", Json.num 70), ("message", Json.str "bad session")] 70 "bad session"
    (by decide) rfl rfl rfl rfl rfl rfl rfl
  rw [h]
  rfl

/-- C5: an `error` field that is not an object, or an object missing the
`code` or the `message` key, is classified as a malformed error: a fixed
non-empty diagnostic message — never of the protocol-error format
`"{message} ({code})"` — is appended to `errors_`, and classification never
stalls the queue (the state after any completion has an empty backlog or a
saturated counter). -/
theorem C5_malformed_error_classification :
    (∀ (s : SubsonicScrobbleRequest) (reply : Reply),
      s.replies_.contains reply.handle = true →
      reply.dataEmpty = false →
      containsKey reply.jsonObj "error" = true →
      (∀ efields : List (String × Json),
        getField reply.jsonObj "error" ≠ Json.obj efields) →
      (ScrobbleReplyReceived s reply).errors_ =
        s.errors_ ++ ["Json error is not an object."]) ∧
    (∀ (s : SubsonicScrobbleRequest) (reply : Reply)
        (efields : List (String × Json)),
      s.replies_.contains reply.handle = true →
      reply.dataEmpty = false →
      containsKey reply.jsonObj "error" = true →
      getField reply.jsonObj "error" = Json.obj efields →
      (containsKey efields "code" = false ∨ containsKey efields "message" = false) →
      (ScrobbleReplyReceived s reply).errors_ =
        s.errors_ ++ ["Json error object is missing code or message."]) ∧
    ("Json error is not an object." ≠ "" ∧
      "Json error object is missing code or message." ≠ "") ∧
    (∀ (m : String) (c : Int),
      "Json error is not an object." ≠ m ++ " (" ++ toString c ++ ")" ∧
      "Json error object is missing code or message." ≠
        m ++ " (" ++ toString c ++ ")") ∧
    (∀ (s : SubsonicScrobbleRequest) (reply : Reply),
      s.replies_.contains reply.handle = true →
      ((ScrobbleReplyReceived s reply).scrobble_requests_queue_ = [] ∨
        ¬((ScrobbleReplyReceived s reply).scrobble_requests_active_ <
            kMaxConcurrentScrobbleRequests))) := by
  refine ⟨?_, ?_, ⟨by decide, by decide⟩, ?_, ?_⟩
  · intro s reply hmem hde hce hnotobj
    rw [SRR_errors s reply hmem]
    have hne : reply.jsonObj.isEmpty = false := containsKey_isEmpty _ _ hce
    have hc : classifyMsg reply = ["Json error is not an object."] := by
      cases hval : getField reply.jsonObj "error"
      case obj efields => exact absurd hval (hnotobj efields)
      all_goals simp [classifyMsg, hde, hne, hce, hval]
    rw [hc]
  · intro s reply efields hmem hde hce hobj hmiss
    rw [SRR_errors s reply hmem]
    have hne : reply.jsonObj.isEmpty = false := containsKey_isEmpty _ _ hce
    have hcond : (!efields.isEmpty && containsKey efields "code" &&
        containsKey efields "message") = false := by
      rcases hmiss with h1 | h1 <;> simp [h1]
    simp [classifyMsg, hde, hne, hce, hobj, hcond]
  · intro m c
    exact ⟨ne_protocolFormat_of_getLast "Json error is not an object." '.' rfl
        (by decide) m c,
      ne_protocolFormat_of_getLast "Json error object is missing code or message." '.'
        rfl (by decide) m c⟩
  · intro s reply hmem
    exact SRR_nostall s reply hmem

/-- C5 witness: `{"error":"oops"}` and `{"error":{"code":70}}` on a concrete
state, plus the no-stall disjunction for the first completion. -/
theorem C5_malformed_error_classification_witness :
    (sOne.replies_.contains replyNotObject.handle = true ∧
      (ScrobbleReplyReceived sOne replyNotObject).errors_ =
        sOne.errors_ ++ ["Json error is not an object."]) ∧
    (sOne.replies_.contains replyMissing.handle = true ∧
      (ScrobbleReplyReceived sOne replyMissing).errors_ =
        sOne.errors_ ++ ["Json error object is missing code or message."]) ∧
    ((ScrobbleReplyReceived sOne replyNotObject).scrobble_requests_queue_ = [] ∨
      ¬((ScrobbleReplyReceived sOne replyNotObject).scrobble_requests_active_ <
          kMaxConcurrentScrobbleRequests)) :=
  ⟨⟨by decide, C5_malformed_error_classification.1 sOne replyNotObject
      (by decide) rfl rfl (fun efields h => Json.noConfusion h)⟩,
   ⟨by decide, C5_malformed_error_classification.2.1 sOne replyMissing
      [("code", Json.num 70)] (by decide) rfl rfl rfl (Or.inr rfl)⟩,
   C5_malformed_error_classification.2.2.2.2 sOne replyNotObject (by decide)⟩

/-- C10: the protocol-vs-malformed decision tests only the presence of the
`code` and `message` keys, not their JSON types: when both keys are present
with values of the wrong type, the completion takes the protocol-error
branch with the coercion defaults (code 0, empty message) and appends
`" (0)"`, not a malformed-error diagnostic. -/
theorem C10_type_coercion_protocol :
    ∀ (s : SubsonicScrobbleRequest) (reply : Reply)
        (efields : List (String × Json)),
      s.replies_.contains reply.handle = true →
      reply.dataEmpty = false →
      containsKey reply.jsonObj "error" = true →
      getField reply.jsonObj "error" = Json.obj efields →
      containsKey efields "code" = true →
      containsKey efields "message" = true →
      (∀ n : Int, getField efields "code" ≠ Json.num n) →
      (∀ m : String, getField efields "message" ≠ Json.str m) →
      (ScrobbleReplyReceived s reply).errors_ = s.errors_ ++ [" (0)"] := by
  intro s reply efields hmem hde hce hobj hcc hcm hnc hnm
  rw [SRR_errors s reply hmem]
  have hne : reply.jsonObj.isEmpty = false := containsKey_isEmpty _ _ hce
  have hne2 : efields.isEmpty = false := containsKey_isEmpty _ _ hcc
  have h1 := jsonToInt_default _ hnc
  have h2 := jsonToString_default _ hnm
  simp [classifyMsg, hde, hne, hce, hobj, hne2, hcc, hcm, h1, h2]
  rfl

/-- C10 witness: `{"error":{"code":"x","message":5}}` appends `" (0)"`. -/
theorem C10_type_coercion_protocol_witness :
    sOne.replies_.contains replyWrongTypes.handle = true ∧
    (ScrobbleReplyReceived sOne replyWrongTypes).errors_ =
      sOne.errors_ ++ [" (0)"] :=
  ⟨by decide, C10_type_coercion_protocol sOne replyWrongTypes
    [("code", Json.str "x"), ("message", Json.num 5)] (by decide) rfl rfl rfl rfl rfl
    (fun n h => Json.noConfusion h) (fun m h => Json.noConfusion h)⟩

/-- C2: `CreateScrobbleRequest` always succeeds in appending the request at
the tail (the dispatch trace plus the remaining backlog equals the old ones
plus the new request at the end — nothing is lost or reordered); submitting
`N ≥ 3` requests from the idle initial state dispatches exactly the first 3
and leaves the remaining `N - 3` queued in submission order; and from a
saturated state each completion dispatches exactly the backlog head, in FIFO
order. -/
theorem C2_submit_fifo :
    (∀ (s : SubsonicScrobbleRequest) (song_id : String) (submission : Bool)
        (time_ms : Int),
      (CreateScrobbleRequest s song_id submission time_ms).dispatched ++
          (CreateScrobbleRequest s song_id submission time_ms).scrobble_requests_queue_ =
        s.dispatched ++ s.scrobble_requests_queue_ ++ [⟨song_id, submission, time_ms⟩]) ∧
    (∀ rs : List Request, 3 ≤ rs.length →
      (run (submitEvents rs)).dispatched = rs.take 3 ∧
      (run (submitEvents rs)).scrobble_requests_queue_ = rs.drop 3 ∧
      (run (submitEvents rs)).scrobble_requests_active_ = 3) ∧
    (∀ (s : SubsonicScrobbleRequest) (reply : Reply) (req : Request)
        (q : List Request),
      s.scrobble_requests_queue_ = req :: q →
      s.scrobble_requests_active_ = 3 →
      s.replies_.contains reply.handle = true →
      (ScrobbleReplyReceived s reply).dispatched = s.dispatched ++ [req] ∧
      (ScrobbleReplyReceived s reply).scrobble_requests_queue_ = q ∧
      (ScrobbleReplyReceived s reply).scrobble_requests_active_ = 3) := by
  refine ⟨?_, ?_, ?_⟩
  · intro s song_id submission time_ms
    obtain ⟨k, hq, hd, _, _, _, _, _, _⟩ :=
      createScrobble_PostOk s song_id submission time_ms
    rw [hd, hq]
    dsimp only
    rw [List.append_assoc s.dispatched, List.take_append_drop]
    simp [List.append_assoc]
  · intro rs hlen
    obtain ⟨h1, h2, h3⟩ := submits_filling rs initState rfl (by decide) (by decide)
    have hf : (kMaxConcurrentScrobbleRequests -
        initState.scrobble_requests_active_).toNat = 3 := by decide
    rw [hf] at h1 h2 h3
    refine ⟨?_, ?_, ?_⟩
    · show (runFrom initState (submitEvents rs)).dispatched = rs.take 3
      rw [h1]
      simp [initState]
    · exact h2
    · show (runFrom initState (submitEvents rs)).scrobble_requests_active_ = 3
      rw [h3]
      have hm : min rs.length 3 = 3 := by omega
      rw [hm]
      decide
  · intro s reply req q hq ha hmem
    have hk : kMaxConcurrentScrobbleRequests = 3 := rfl
    obtain ⟨k, hq', hd', ha', _, _, _, hb, hlen⟩ := SRR_PostOk s reply hmem
    have hadq : (afterDecrement s reply).scrobble_requests_queue_ = req :: q := hq
    have hada : (afterDecrement s reply).scrobble_requests_active_ =
        s.scrobble_requests_active_ - 1 := rfl
    have haSRR : (ScrobbleReplyReceived s reply).scrobble_requests_active_ =
        2 + (k : Int) := by
      rw [ha', hada, ha]
      ring
    have hksmall : k ≤ 1 := by
      have hb2 := hb (by rw [hada, ha, hk]; omega)
      rw [haSRR, hk] at hb2
      omega
    have hqSRR : (ScrobbleReplyReceived s reply).scrobble_requests_queue_ =
        (req :: q).drop k := by
      rw [hq', hadq]
    have hk1 : k = 1 := by
      rcases SRR_nostall s reply hmem with hql | hge
      · rw [hqSRR] at hql
        have hlq := List.drop_eq_nil_iff.mp hql
        simp at hlq
        omega
      · rw [haSRR, hk] at hge
        omega
    refine ⟨?_, ?_, ?_⟩
    · rw [hd', hk1]
      have htake : (afterDecrement s reply).scrobble_requests_queue_.take 1 = [req] := by
        rw [hadq]
        rfl
      rw [htake]
      rfl
    · rw [hqSRR, hk1]
      exact rfl
    · rw [haSRR, hk1]
      decide
/-- C2 witness: four submissions from idle dispatch three and queue one, and
one completion on the saturated state `sIdle3` dispatches exactly the queued
head. -/
theorem C2_submit_fifo_witness :
    (3 ≤ rsW.length ∧
      (run (submitEvents rsW)).dispatched = rsW.take 3 ∧
      (run (submitEvents rsW)).scrobble_requests_queue_ = rsW.drop 3 ∧
      (run (submitEvents rsW)).scrobble_requests_active_ = 3) ∧
    (sIdle3.scrobble_requests_queue_ = reqD :: [] ∧
      sIdle3.scrobble_requests_active_ = 3 ∧
      sIdle3.replies_.contains replySuccess.handle = true ∧
      (ScrobbleReplyReceived sIdle3 replySuccess).dispatched =
        sIdle3.dispatched ++ [reqD] ∧
      (ScrobbleReplyReceived sIdle3 replySuccess).scrobble_requests_queue_ = [] ∧
      (ScrobbleReplyReceived sIdle3 replySuccess).scrobble_requests_active_ = 3) := by
  have h := C2_submit_fifo
  have h2 := h.2.2 sIdle3 replySuccess reqD [] rfl rfl (by decide)
  exact ⟨⟨by decide, h.2.1 rsW (by decide)⟩,
    ⟨rfl, rfl, by decide, h2.1, h2.2.1, h2.2.2⟩⟩

/-- C8: every completion for a live handle — regardless of classification
outcome, since the statement quantifies over all payloads — removes the
handle from the active set, decrements the counter exactly once (the final
counter is the decremented value plus one per newly dispatched request), and
drains the backlog again: afterwards the backlog is empty or the counter is
back at the limit. -/
theorem C8_completion_always_drains :
    ∀ (s : SubsonicScrobbleRequest) (reply : Reply),
      WF s →
      s.replies_.contains reply.handle = true →
      (ScrobbleReplyReceived s reply).replies_.contains reply.handle = false ∧
      (∃ newly : List Request,
        (ScrobbleReplyReceived s reply).dispatched = s.dispatched ++ newly ∧
        (ScrobbleReplyReceived s reply).scrobble_requests_active_ =
          s.scrobble_requests_active_ - 1 + newly.length) ∧
      ((ScrobbleReplyReceived s reply).scrobble_requests_queue_ = [] ∨
        ¬((ScrobbleReplyReceived s reply).scrobble_requests_active_ <
            kMaxConcurrentScrobbleRequests)) := by
  intro s reply hwf hmem
  refine ⟨SRR_handle_not_contained s reply hwf, ?_, SRR_nostall s reply hmem⟩
  obtain ⟨k, hq, hd, ha, _, _, _, _, hlen⟩ := SRR_PostOk s reply hmem
  refine ⟨(afterDecrement s reply).scrobble_requests_queue_.take k, ?_, ?_⟩
  · exact hd
  · rw [ha, List.length_take, Nat.min_eq_left hlen]
    rfl

/-- C8 witness: the theorem applied at a concrete saturated state. -/
theorem C8_completion_always_drains_witness :
    WF sIdle3 ∧ sIdle3.replies_.contains replySuccess.handle = true ∧
    (ScrobbleReplyReceived sIdle3 replySuccess).replies_.contains replySuccess.handle
      = false ∧
    ((ScrobbleReplyReceived sIdle3 replySuccess).scrobble_requests_queue_ = [] ∨
      ¬((ScrobbleReplyReceived sIdle3 replySuccess).scrobble_requests_active_ <
          kMaxConcurrentScrobbleRequests)) :=
  ⟨wf_sIdle3, by decide,
    (C8_completion_always_drains sIdle3 replySuccess wf_sIdle3 (by decide)).1,
    (C8_completion_always_drains sIdle3 replySuccess wf_sIdle3 (by decide)).2.2⟩
